import Mathlib

/-!
# Shallow embedding of the EIP-7702 / ERC-4337 smart-account contracts

This file embeds the two core contracts of the repository,
`contracts/EIP7702Delegate.sol` and `contracts/Paymaster.sol`, as executable
Lean definitions and proves the specified properties about them.

Modelling conventions:

* `address` and `uint256` values are `Nat`; Solidity 0.8 checked arithmetic
  is modelled explicitly (`uincr` and `uadd` revert with `Panic(0x11)`
  instead of wrapping past `2 ^ 256`);
* contract storage mappings are total functions whose initial image is the
  Solidity default value (`0` / `false` / the zero struct);
* an external `target.call` with a value and calldata is an oracle of type
  `ExtCall W` over an abstract external world `W`; on failure it returns the raw
  revert bytes of the callee;
* EVM revert data is modelled by `RevertData`: `errorString` for
  `require` with a message, `customError` for Solidity custom errors,
  `panic` for arithmetic panics, and `raw` for bytes bubbled up verbatim
  by inline assembly;
* transaction-level semantics (`executeBatchTx`, `dstep`, `pstep`): a revert
  anywhere discards every state change of the transaction, so the step
  functions return the pre-state together with the revert reason.
-/

/-- EVM revert data at the abstraction level the contracts use. -/
inductive RevertData where
  | errorString (msg : String)
  | customError (name : String) (args : List Nat)
  | panic (code : Nat)
  | raw (bytes : List Nat)
deriving DecidableEq

/-- The `uint256` modulus. -/
def UINT256_MOD : Nat := 2 ^ 256

/-- Checked `uint256` increment: Solidity 0.8 reverts with `Panic(0x11)`
on overflow instead of wrapping. -/
def uincr (n : Nat) : Except RevertData Nat :=
  if n + 1 < UINT256_MOD then .ok (n + 1) else .error (.panic 17)

/-- Checked `uint256` addition: Solidity 0.8 reverts with `Panic(0x11)`
on overflow instead of wrapping. -/
def uadd (a b : Nat) : Except RevertData Nat :=
  if a + b < UINT256_MOD then .ok (a + b) else .error (.panic 17)

/-- Pointwise update of a storage mapping. -/
def upd {α : Type} (f : Nat → α) (a : Nat) (v : α) : Nat → α :=
  fun x => if x = a then v else f x

theorem upd_same {α : Type} (f : Nat → α) (a : Nat) (v : α) : upd f a v a = v := by
  simp [upd]

theorem upd_other {α : Type} (f : Nat → α) (a : Nat) (v : α) (b : Nat) (h : b ≠ a) :
    upd f a v b = f b := by
  simp [upd, h]

theorem upd_self {α : Type} (f : Nat → α) (a : Nat) : upd f a (f a) = f := by
  funext x
  by_cases h : x = a <;> simp [upd, h]

/-- One entry of `calls` in `EIP7702Delegate.executeBatch`:
`struct Call { address target; uint256 value; bytes data; }`. -/
structure Call where
  target : Nat
  value : Nat
  data : List Nat
deriving DecidableEq

/-- `struct SessionKey { uint256 validUntil; uint256 maxValue; bool isActive; }`. -/
structure SessionKey where
  validUntil : Nat
  maxValue : Nat
  isActive : Bool
deriving DecidableEq

/-- The Solidity default value of a `SessionKey` storage slot. -/
def SessionKey.zero : SessionKey := ⟨0, 0, false⟩

/-- Storage of `EIP7702Delegate`:
`mapping(address => uint256) public nonces;` and
`mapping(address => mapping(address => SessionKey)) public sessionKeys;`. -/
structure DelegateState where
  nonces : Nat → Nat
  sessionKeys : Nat → Nat → SessionKey

/-- Freshly deployed delegate: every mapping entry holds its default value. -/
def DelegateState.init : DelegateState :=
  ⟨fun _ => 0, fun _ _ => SessionKey.zero⟩

/-- Oracle for an external `target.call` with a value and calldata over an
abstract external world `W` (target, value, data, world): success yields the
new world, failure yields the raw revert bytes returned by the callee. -/
abbrev ExtCall (W : Type) := Nat → Nat → List Nat → W → Except (List Nat) W

/-- `isValidSessionKey(sessionKey, account)`: reads the stored entry and
returns `key.isActive && block.timestamp <= key.validUntil`
(`timestamp` stands for `block.timestamp`). A `view` function: it takes the
state and returns a `Bool`, modifying nothing. -/
def isValidSessionKey (s : DelegateState) (timestamp sessionKey account : Nat) : Bool :=
  let key := s.sessionKeys account sessionKey
  key.isActive && decide (timestamp ≤ key.validUntil)

/-- `getNonce(account)`: returns `nonces[account]`. -/
def getNonce (s : DelegateState) (account : Nat) : Nat :=
  s.nonces account

/-- The loop body of `executeBatch`: run the calls strictly in order,
stopping at the first failure with its raw revert bytes. -/
def runCalls {W : Type} (ext : ExtCall W) : List Call → W → Except (List Nat) W
  | [], w => .ok w
  | c :: rest, w =>
    match ext c.target c.value c.data w with
    | .ok w2 => runCalls ext rest w2
    | .error r => .error r

/-- `executeBatch(Call[] calldata calls)` with the `onlyDelegatingAccount`
modifier (`msg.sender == address(this)`, here `self`): increments
`nonces[msg.sender]` (checked), then executes the calls in order; if a call
fails its revert bytes are bubbled up verbatim by the inline assembly. -/
def executeBatch {W : Type} (ext : ExtCall W) (self msgSender : Nat) (calls : List Call)
    (s : DelegateState) (w : W) : Except RevertData (DelegateState × W) :=
  if msgSender = self then
    match uincr (s.nonces msgSender) with
    | .error e => .error e
    | .ok n2 =>
      match runCalls ext calls w with
      | .ok w2 => .ok ({ s with nonces := upd s.nonces msgSender n2 }, w2)
      | .error r => .error (.raw r)
  else .error (.errorString "Not delegating account")

/-- Transaction-level view of `executeBatch`: an EVM revert discards every
state change of the transaction, so on error the pre-state is kept and the
revert reason is reported. -/
def executeBatchTx {W : Type} (ext : ExtCall W) (self msgSender : Nat) (calls : List Call)
    (s : DelegateState) (w : W) : (DelegateState × W) × Option RevertData :=
  match executeBatch ext self msgSender calls s w with
  | .ok sw => (sw, none)
  | .error e => ((s, w), some e)

/-- `addSessionKey(sessionKey, validUntil, maxValue)` with the
`onlyDelegatingAccount` modifier: unconditionally overwrites
`sessionKeys[msg.sender][sessionKey]` with the new fields and
`isActive: true`. -/
def addSessionKey (self msgSender sessionKey validUntil maxValue : Nat)
    (s : DelegateState) : Except RevertData DelegateState :=
  if msgSender = self then
    let row := upd (s.sessionKeys msgSender) sessionKey ⟨validUntil, maxValue, true⟩
    .ok { s with sessionKeys := upd s.sessionKeys msgSender row }
  else .error (.errorString "Not delegating account")

/-- `executeWithSessionKey(target, value, data)` with the
`onlyAccountOrSession` modifier (`tx.origin == msg.sender` or
`isValidSessionKey(msg.sender, tx.origin)`): reads
`sessionKeys[tx.origin][msg.sender]`, requires the key active, unexpired and
`value <= maxValue`, then performs the single external call, bubbling the
callee's revert bytes verbatim on failure. It writes no storage. -/
def executeWithSessionKey {W : Type} (ext : ExtCall W) (txOrigin msgSender target value : Nat)
    (data : List Nat) (timestamp : Nat) (s : DelegateState) (w : W) :
    Except RevertData (DelegateState × W) :=
  if txOrigin = msgSender ∨ isValidSessionKey s timestamp msgSender txOrigin then
    let sessionKey := s.sessionKeys txOrigin msgSender
    if sessionKey.isActive then
      if timestamp ≤ sessionKey.validUntil then
        if value ≤ sessionKey.maxValue then
          match ext target value data w with
          | .ok w2 => .ok (s, w2)
          | .error r => .error (.raw r)
        else .error (.errorString "Value exceeds session limit")
      else .error (.errorString "Session key expired")
    else .error (.errorString "Session key not active")
  else .error (.errorString "Unauthorized")

/-- `revokeSessionKey(sessionKey)` with the `onlyDelegatingAccount` modifier:
sets `sessionKeys[msg.sender][sessionKey].isActive = false`, leaving the
other fields in place (a tombstone, never a deletion). -/
def revokeSessionKey (self msgSender sessionKey : Nat) (s : DelegateState) :
    Except RevertData DelegateState :=
  if msgSender = self then
    let row := upd (s.sessionKeys msgSender) sessionKey
      { s.sessionKeys msgSender sessionKey with isActive := false }
    .ok { s with sessionKeys := upd s.sessionKeys msgSender row }
  else .error (.errorString "Not delegating account")

/-- One externally-invokable operation of `EIP7702Delegate`, with the
per-transaction environment (`msg.sender`, `tx.origin`, `block.timestamp`)
carried in the constructor. -/
inductive DOp where
  | opExecuteBatch (msgSender : Nat) (calls : List Call)
  | opAddSessionKey (msgSender sessionKey validUntil maxValue : Nat)
  | opExecuteWithSessionKey (txOrigin msgSender target value : Nat)
      (data : List Nat) (timestamp : Nat)
  | opRevokeSessionKey (msgSender sessionKey : Nat)
  | opIsValidSessionKey (timestamp sessionKey account : Nat)
  | opGetNonce (account : Nat)
  | opReceive

/-- Transaction-level step of `EIP7702Delegate` (`self` is `address(this)`,
the delegating EOA): a revert leaves the state unchanged and reports the
reason; the `view` members and `receive()` change nothing. -/
def dstep {W : Type} (ext : ExtCall W) (self : Nat) (op : DOp) (s : DelegateState) (w : W) :
    (DelegateState × W) × Option RevertData :=
  match op with
  | .opExecuteBatch msgSender calls => executeBatchTx ext self msgSender calls s w
  | .opAddSessionKey msgSender k vU mV =>
    match addSessionKey self msgSender k vU mV s with
    | .ok s2 => ((s2, w), none)
    | .error e => ((s, w), some e)
  | .opExecuteWithSessionKey txO ms t v d ts =>
    match executeWithSessionKey ext txO ms t v d ts s w with
    | .ok sw => (sw, none)
    | .error e => ((s, w), some e)
  | .opRevokeSessionKey ms k =>
    match revokeSessionKey self ms k s with
    | .ok s2 => ((s2, w), none)
    | .error e => ((s, w), some e)
  | .opIsValidSessionKey _ _ _ => ((s, w), none)
  | .opGetNonce _ => ((s, w), none)
  | .opReceive => ((s, w), none)

/-- The fields of `PackedUserOperation` (account-abstraction interface).
`validatePaymasterUserOp` reads only `sender`, `preVerificationGas` and
`gasFees`; the remaining fields are carried for fidelity. `gasFees` is a
`bytes32` holding `maxFeePerGas` in its high 128 bits and
`maxPriorityFeePerGas` in its low 128 bits. -/
structure PackedUserOperation where
  sender : Nat
  nonce : Nat
  initCode : List Nat
  callData : List Nat
  accountGasLimits : Nat
  preVerificationGas : Nat
  gasFees : Nat
  paymasterAndData : List Nat
  signature : List Nat
deriving DecidableEq

/-- Storage of `Paymaster`: `bool public isShutdown`, the immutable-by-code
`entryPoint` and `accountFactory` addresses, the `Ownable` owner, and the
two mappings `accountGasUsage` and `sponsoredAccounts`. -/
structure PayState where
  isShutdown : Bool
  entryPoint : Nat
  accountFactory : Nat
  owner : Nat
  accountGasUsage : Nat → Nat
  sponsoredAccounts : Nat → Bool

/-- The `Paymaster` constructor: `Ownable(msg.sender)`, `isShutdown = false`,
and the entry-point / factory addresses from the arguments. -/
def payConstruct (deployer entryPointAddr accountFactoryAddr : Nat) : PayState :=
  ⟨false, entryPointAddr, accountFactoryAddr, deployer, fun _ => 0, fun _ => false⟩

/-- `uint256 public constant MAX_GAS_LIMIT = 10000000;` -/
def MAX_GAS_LIMIT : Nat := 10000000

/-- `uint256 public constant MAX_FEE_PER_GAS = 100 gwei;` -/
def MAX_FEE_PER_GAS : Nat := 100 * 1000000000

/-- `_parseGasFees(bytes32 packedFees)`: `maxFeePerGas` is the high 128 bits
(`uint256(uint128(bytes16(packedFees)))`), `maxPriorityFeePerGas` the low 128
bits (`uint256(uint128(bytes16(packedFees << 128)))`). -/
def parseGasFees (packedFees : Nat) : Nat × Nat :=
  (packedFees / 2 ^ 128, packedFees % 2 ^ 128)

/-- The revert reason of the `notShutdown` modifier. -/
def shutdownErr : RevertData := .errorString "Paymaster is shut down"

/-- The revert reason of OpenZeppelin `Ownable`'s `onlyOwner` modifier. -/
def notOwnerErr (caller : Nat) : RevertData :=
  .customError "OwnableUnauthorizedAccount" [caller]

/-- `validatePaymasterUserOp(userOp, userOpHash, maxCost)`, a `view` with the
`notShutdown` modifier. The entry-point deposit read
`entryPoint.balanceOf(address(this))` is the external oracle value
`entryPointBalance`. The `require` statements run in source order: shutdown
guard, entry-point caller check, `preVerificationGas` ceiling, deposit
balance, parsed `maxFeePerGas` ceiling, sponsorship whitelist. On success it
returns `(abi.encode(userOp.sender), 0)`; the context is modelled as the
encoded sender address. -/
def validatePaymasterUserOp (s : PayState) (msgSender entryPointBalance : Nat)
    (userOp : PackedUserOperation) (userOpHash maxCost : Nat) :
    Except RevertData (Nat × Nat) :=
  if s.isShutdown then .error shutdownErr
  else if ¬ (s.entryPoint = msgSender) then .error (.errorString "Invalid entry point")
  else if ¬ (userOp.preVerificationGas ≤ MAX_GAS_LIMIT) then
    .error (.errorString "Gas limits too high")
  else if ¬ (entryPointBalance ≥ maxCost) then
    .error (.errorString "Insufficient funds for gas")
  else if ¬ ((parseGasFees userOp.gasFees).1 ≤ MAX_FEE_PER_GAS) then
    .error (.errorString "Gas fee too high")
  else if ¬ (s.sponsoredAccounts userOp.sender = true) then
    .error (.errorString "Account not sponsored")
  else .ok (userOp.sender, 0)

/-- `postOp(mode, context, actualGasCost, actualUserOpFeePerGas)` with the
`notShutdown` modifier: requires the caller to be the entry point, decodes
the account address from the context (modelled as the address itself, matching
what `validatePaymasterUserOp` encodes), and adds `actualGasCost` to
`accountGasUsage[userAccount]` with checked arithmetic. `mode` is unused by
the body, as in the source. -/
def postOp (s : PayState) (msgSender mode context actualGasCost actualUserOpFeePerGas : Nat) :
    Except RevertData PayState :=
  if s.isShutdown then .error shutdownErr
  else if ¬ (s.entryPoint = msgSender) then .error (.errorString "Invalid entry point")
  else
    match uadd (s.accountGasUsage context) actualGasCost with
    | .error e => .error e
    | .ok v => .ok { s with accountGasUsage := upd s.accountGasUsage context v }

/-- `addSponsoredAccount(account)`, `onlyOwner`. -/
def addSponsoredAccount (s : PayState) (msgSender account : Nat) :
    Except RevertData PayState :=
  if msgSender = s.owner then
    .ok { s with sponsoredAccounts := upd s.sponsoredAccounts account true }
  else .error (notOwnerErr msgSender)

/-- `removeSponsoredAccount(account)`, `onlyOwner`. -/
def removeSponsoredAccount (s : PayState) (msgSender account : Nat) :
    Except RevertData PayState :=
  if msgSender = s.owner then
    .ok { s with sponsoredAccounts := upd s.sponsoredAccounts account false }
  else .error (notOwnerErr msgSender)

/-- `deposit()`, `onlyOwner`: forwards `msg.value` to
`entryPoint.depositTo(address(this))`, touching no paymaster storage (the
entry-point deposit lives in the external entry-point contract). -/
def deposit (s : PayState) (msgSender value : Nat) : Except RevertData PayState :=
  if msgSender = s.owner then .ok s else .error (notOwnerErr msgSender)

/-- `withdrawFromEntryPoint(amount)`, `onlyOwner`: calls
`entryPoint.withdrawTo(owner(), amount)`, touching no paymaster storage. -/
def withdrawFromEntryPoint (s : PayState) (msgSender amount : Nat) :
    Except RevertData PayState :=
  if msgSender = s.owner then .ok s else .error (notOwnerErr msgSender)

/-- `withdraw()`, modifiers `onlyOwner notShutdown` in that order: the
ownership check runs before the shutdown check; on success the contract
balance is transferred to the owner (an external effect, no storage write). -/
def withdraw (s : PayState) (msgSender : Nat) : Except RevertData PayState :=
  if msgSender = s.owner then
    if s.isShutdown then .error shutdownErr
    else .ok s
  else .error (notOwnerErr msgSender)

/-- `shutdown()`, `onlyOwner`: sets `isShutdown = true` and transfers the
contract balance to the owner (external effect). No function of the contract
ever writes `false` to `isShutdown`; only the constructor starts it `false`. -/
def shutdown (s : PayState) (msgSender : Nat) : Except RevertData PayState :=
  if msgSender = s.owner then .ok { s with isShutdown := true }
  else .error (notOwnerErr msgSender)

/-- OpenZeppelin `Ownable.transferOwnership(newOwner)`, inherited by
`Paymaster`: `onlyOwner`, rejects the zero address, otherwise replaces the
owner. Touches no `Paymaster`-declared storage. -/
def transferOwnership (s : PayState) (msgSender newOwner : Nat) :
    Except RevertData PayState :=
  if msgSender = s.owner then
    if newOwner = 0 then .error (.customError "OwnableInvalidOwner" [0])
    else .ok { s with owner := newOwner }
  else .error (notOwnerErr msgSender)

/-- OpenZeppelin `Ownable.renounceOwnership()`, inherited by `Paymaster`:
`onlyOwner`, sets the owner to the zero address. -/
def renounceOwnership (s : PayState) (msgSender : Nat) : Except RevertData PayState :=
  if msgSender = s.owner then .ok { s with owner := 0 }
  else .error (notOwnerErr msgSender)

/-- One externally-invokable operation of `Paymaster` (including the
inherited `Ownable` mutators and the `view`/`receive` members), with the
per-transaction environment in the constructor. -/
inductive POp where
  | opValidatePaymasterUserOp (msgSender entryPointBalance : Nat)
      (userOp : PackedUserOperation) (userOpHash maxCost : Nat)
  | opPostOp (msgSender mode context actualGasCost actualUserOpFeePerGas : Nat)
  | opAddSponsoredAccount (msgSender account : Nat)
  | opRemoveSponsoredAccount (msgSender account : Nat)
  | opDeposit (msgSender value : Nat)
  | opWithdrawFromEntryPoint (msgSender amount : Nat)
  | opWithdraw (msgSender : Nat)
  | opShutdown (msgSender : Nat)
  | opTransferOwnership (msgSender newOwner : Nat)
  | opRenounceOwnership (msgSender : Nat)
  | opGetDeposit (msgSender : Nat)
  | opReceiveEth (value : Nat)

/-- Transaction-level outcome of a `Paymaster` state mutator: a revert
leaves the storage unchanged and reports the reason. -/
def txOf (s : PayState) : Except RevertData PayState → PayState × Option RevertData
  | .ok s2 => (s2, none)
  | .error e => (s, some e)

/-- Transaction-level step of `Paymaster`: dispatches one operation; a revert
leaves the state unchanged, `view` members and `receive()` change nothing. -/
def pstep (op : POp) (s : PayState) : PayState × Option RevertData :=
  match op with
  | .opValidatePaymasterUserOp ms bal uop h mc =>
    match validatePaymasterUserOp s ms bal uop h mc with
    | .ok _ => (s, none)
    | .error e => (s, some e)
  | .opPostOp ms mode ctx cost fee => txOf s (postOp s ms mode ctx cost fee)
  | .opAddSponsoredAccount ms a => txOf s (addSponsoredAccount s ms a)
  | .opRemoveSponsoredAccount ms a => txOf s (removeSponsoredAccount s ms a)
  | .opDeposit ms v => txOf s (deposit s ms v)
  | .opWithdrawFromEntryPoint ms amt => txOf s (withdrawFromEntryPoint s ms amt)
  | .opWithdraw ms => txOf s (withdraw s ms)
  | .opShutdown ms => txOf s (shutdown s ms)
  | .opTransferOwnership ms o => txOf s (transferOwnership s ms o)
  | .opRenounceOwnership ms => txOf s (renounceOwnership s ms)
  | .opGetDeposit _ => (s, none)
  | .opReceiveEth _ => (s, none)

/-- Apply a sequence of `Paymaster` transactions in order. -/
def runPOps (ops : List POp) (s : PayState) : PayState :=
  ops.foldl (fun st op => (pstep op st).1) s

/-- Spec-style ordered admission pipeline: the first check whose condition
is `false` is the reported reason; `none` means admission. Used to compare
`validatePaymasterUserOp` with the specified check order. -/
def firstFailing : List (Bool × String) → Option String
  | [] => none
  | (ok, msg) :: rest => if ok then firstFailing rest else some msg

/-- The admission checks of `validatePaymasterUserOp` in the order the
source performs them: shutdown guard, entry-point caller, gas ceiling,
funded-balance, fee-rate ceiling, whitelist. -/
def admitChecks (s : PayState) (msgSender entryPointBalance : Nat)
    (userOp : PackedUserOperation) (maxCost : Nat) : List (Bool × String) :=
  [ (!s.isShutdown, "Paymaster is shut down"),
    (decide (s.entryPoint = msgSender), "Invalid entry point"),
    (decide (userOp.preVerificationGas ≤ MAX_GAS_LIMIT), "Gas limits too high"),
    (decide (entryPointBalance ≥ maxCost), "Insufficient funds for gas"),
    (decide ((parseGasFees userOp.gasFees).1 ≤ MAX_FEE_PER_GAS), "Gas fee too high"),
    (s.sponsoredAccounts userOp.sender, "Account not sponsored") ]

/-- Concrete external world for witnesses: every call succeeds and bumps the
world counter. -/
def extOk : ExtCall Nat := fun _ _ _ w => .ok (w + 1)

/-- Concrete external world for witnesses: calls to target `1` succeed,
every other call fails with revert bytes `[7]`. -/
def extFail7 : ExtCall Nat := fun t _ _ w => if t = 1 then .ok (w + 1) else .error [7]

/-- Concrete delegate state: account `5` granted session key `9` with
`validUntil = 100`, `maxValue = 40`, active. -/
def sWit : DelegateState :=
  ⟨DelegateState.init.nonces,
    upd DelegateState.init.sessionKeys 5
      (upd (DelegateState.init.sessionKeys 5) 9 ⟨100, 40, true⟩)⟩

/-- Concrete delegate state: account `5` holds a revoked entry for key `9`. -/
def sRevokedFix : DelegateState :=
  ⟨DelegateState.init.nonces,
    upd DelegateState.init.sessionKeys 5
      (upd (DelegateState.init.sessionKeys 5) 9 ⟨100, 40, false⟩)⟩

/-- Concrete paymaster state: running, entry point `1`, factory `2`,
owner `7`, every account sponsored. -/
def payRun : PayState := ⟨false, 1, 2, 7, fun _ => 0, fun _ => true⟩

/-- Concrete paymaster state: shut down, otherwise as `payRun`. -/
def payShut : PayState := ⟨true, 1, 2, 7, fun _ => 0, fun _ => true⟩

/-- Concrete user operation whose packed `maxFeePerGas` is 200 gwei, twice
the allowed ceiling. -/
def opHighFee : PackedUserOperation :=
  ⟨3, 0, [], [], 0, 0, 200000000000 * 2 ^ 128, [], []⟩

/-- Concrete user operation passing every static ceiling. -/
def opModest : PackedUserOperation := ⟨3, 0, [], [], 0, 0, 0, [], []⟩

theorem runCalls_nil {W : Type} (ext : ExtCall W) (w : W) :
    runCalls ext [] w = .ok w := rfl

theorem runCalls_append_ok {W : Type} (ext : ExtCall W) (l1 l2 : List Call) (w w2 : W)
    (h : runCalls ext l1 w = .ok w2) :
    runCalls ext (l1 ++ l2) w = runCalls ext l2 w2 := by
  induction l1 generalizing w with
  | nil =>
    simp only [runCalls] at h
    cases h
    rfl
  | cons c rest ih =>
    simp only [runCalls, List.cons_append] at h ⊢
    cases hx : ext c.target c.value c.data w with
    | ok w3 =>
      rw [hx] at h
      exact ih w3 h
    | error r =>
      rw [hx] at h
      cases h

/-- The only two shapes of a transaction-level `executeBatch`: a revert that
leaves everything unchanged, or a success by the delegating account that
bumps exactly its own nonce. -/
theorem executeBatchTx_cases {W : Type} (ext : ExtCall W) (self ms : Nat)
    (calls : List Call) (s : DelegateState) (w : W) :
    (∃ e, executeBatchTx ext self ms calls s w = ((s, w), some e))
  ∨ (∃ w2, ms = self ∧ executeBatchTx ext self ms calls s w =
      (({ s with nonces := upd s.nonces ms (s.nonces ms + 1) }, w2), none)) := by
  by_cases h1 : ms = self
  · subst h1
    by_cases h2 : s.nonces ms + 1 < UINT256_MOD
    · cases hr : runCalls ext calls w with
      | ok w2 =>
        right
        refine ⟨w2, rfl, ?_⟩
        simp [executeBatchTx, executeBatch, uincr, h2, hr]
      | error r =>
        left
        refine ⟨.raw r, ?_⟩
        simp [executeBatchTx, executeBatch, uincr, h2, hr]
    · left
      refine ⟨.panic 17, ?_⟩
      simp [executeBatchTx, executeBatch, uincr, h2]
  · left
    refine ⟨.errorString "Not delegating account", ?_⟩
    simp [executeBatchTx, executeBatch, h1]

/-- C1: if any call of the ordered batch fails, every state change of the
batch — the nonce increment and the external effects of all preceding
calls — is discarded, and the failing call's revert bytes are propagated
verbatim, unwrapped. -/
theorem executeBatch_atomic_and_transparent {W : Type} (ext : ExtCall W) (self : Nat)
    (pre : List Call) (c : Call) (post : List Call) (s : DelegateState) (w w2 : W)
    (r : List Nat)
    (hn : s.nonces self + 1 < UINT256_MOD)
    (hpre : runCalls ext pre w = .ok w2)
    (hfail : ext c.target c.value c.data w2 = .error r) :
    executeBatchTx ext self self (pre ++ c :: post) s w = ((s, w), some (.raw r)) := by
  have hrc : runCalls ext (pre ++ c :: post) w = .error r := by
    rw [runCalls_append_ok ext pre (c :: post) w w2 hpre]
    simp only [runCalls, hfail]
  unfold executeBatchTx executeBatch uincr
  simp only [if_pos rfl, hn, if_pos, hrc]

/-- Witness for C1 at a concrete batch: one succeeding call to target `1`,
then a failing call to target `2` whose revert bytes are `[7]`. -/
theorem executeBatch_atomic_and_transparent_witness :
    executeBatchTx extFail7 5 5 ([⟨1, 0, []⟩] ++ ⟨2, 0, []⟩ :: []) DelegateState.init 0 =
      ((DelegateState.init, 0), some (.raw [7])) :=
  executeBatch_atomic_and_transparent extFail7 5 [⟨1, 0, []⟩] ⟨2, 0, []⟩ []
    DelegateState.init 0 1 [7] (by decide) (by rfl) (by rfl)

theorem addSessionKey_ok_nonces (self ms k vU mV : Nat) (s s2 : DelegateState)
    (h : addSessionKey self ms k vU mV s = .ok s2) : s2.nonces = s.nonces := by
  unfold addSessionKey at h
  by_cases h1 : ms = self
  · rw [if_pos h1] at h
    have h2 := Except.ok.inj h
    subst h2
    rfl
  · rw [if_neg h1] at h
    cases h

theorem revokeSessionKey_ok_nonces (self ms k : Nat) (s s2 : DelegateState)
    (h : revokeSessionKey self ms k s = .ok s2) : s2.nonces = s.nonces := by
  unfold revokeSessionKey at h
  by_cases h1 : ms = self
  · rw [if_pos h1] at h
    have h2 := Except.ok.inj h
    subst h2
    rfl
  · rw [if_neg h1] at h
    cases h

theorem executeWithSessionKey_ok_state {W : Type} (ext : ExtCall W)
    (txO ms t v : Nat) (d : List Nat) (ts : Nat) (s : DelegateState) (w : W)
    (s2 : DelegateState) (w2 : W)
    (h : executeWithSessionKey ext txO ms t v d ts s w = .ok (s2, w2)) : s2 = s := by
  unfold executeWithSessionKey at h
  by_cases h1 : txO = ms ∨ isValidSessionKey s ts ms txO = true
  · rw [if_pos h1] at h
    by_cases h2 : (s.sessionKeys txO ms).isActive = true
    · rw [if_pos h2] at h
      by_cases h3 : ts ≤ (s.sessionKeys txO ms).validUntil
      · rw [if_pos h3] at h
        by_cases h4 : v ≤ (s.sessionKeys txO ms).maxValue
        · rw [if_pos h4] at h
          cases hx : ext t v d w with
          | ok w3 =>
            rw [hx] at h
            cases h
            rfl
          | error r =>
            rw [hx] at h
            cases h
        · rw [if_neg h4] at h
          cases h
      · rw [if_neg h3] at h
        cases h
    · rw [if_neg h2] at h
      cases h
  · rw [if_neg h1] at h
    cases h

/-- Every delegate transaction either leaves the nonce map untouched, or is
a successful `executeBatch` by some sender whose own nonce entry it bumps by
exactly one. -/
theorem dstep_nonces {W : Type} (ext : ExtCall W) (self : Nat) (op : DOp)
    (s : DelegateState) (w : W) :
    (((dstep ext self op s w).1).1).nonces = s.nonces
    ∨ (∃ ms calls, op = DOp.opExecuteBatch ms calls
        ∧ (dstep ext self op s w).2 = none
        ∧ (((dstep ext self op s w).1).1).nonces = upd s.nonces ms (s.nonces ms + 1)) := by
  cases op with
  | opExecuteBatch ms calls =>
    rcases executeBatchTx_cases ext self ms calls s w with ⟨e, he⟩ | ⟨w2, hms, he⟩
    · left
      simp only [dstep, he]
    · right
      exact ⟨ms, calls, rfl, by simp only [dstep, he], by simp only [dstep, he]⟩
  | opAddSessionKey ms k vU mV =>
    left
    simp only [dstep]
    cases ha : addSessionKey self ms k vU mV s with
    | ok s2 => exact addSessionKey_ok_nonces self ms k vU mV s s2 ha
    | error e => rfl
  | opExecuteWithSessionKey txO ms t v d ts =>
    left
    simp only [dstep]
    cases ha : executeWithSessionKey ext txO ms t v d ts s w with
    | ok sw =>
      have := executeWithSessionKey_ok_state ext txO ms t v d ts s w sw.1 sw.2
        (by rw [ha])
      rw [this]
    | error e => rfl
  | opRevokeSessionKey ms k =>
    left
    simp only [dstep]
    cases ha : revokeSessionKey self ms k s with
    | ok s2 => exact revokeSessionKey_ok_nonces self ms k s s2 ha
    | error e => rfl
  | opIsValidSessionKey ts k a => exact .inl rfl
  | opGetNonce a => exact .inl rfl
  | opReceive => exact .inl rfl

/-- C2: the replay counter starts at 0 for every account, never decreases
under any delegate transaction, is bumped by exactly one (on the sender's
entry only) by each successful `executeBatch`, is untouched by every other
operation — `executeWithSessionKey` in particular — and any change of
`nonces a` can only be a successful `executeBatch` sent by `a` itself. -/
theorem nonces_replay_counter :
    (∀ a, DelegateState.init.nonces a = 0)
  ∧ (∀ (W : Type) (ext : ExtCall W) (self : Nat) (op : DOp) (s : DelegateState)
      (w : W) (a : Nat),
      s.nonces a ≤ (((dstep ext self op s w).1).1).nonces a)
  ∧ (∀ (W : Type) (ext : ExtCall W) (self msgSender : Nat) (calls : List Call)
      (s s2 : DelegateState) (w w2 : W),
      executeBatchTx ext self msgSender calls s w = ((s2, w2), none) →
        s2.nonces msgSender = s.nonces msgSender + 1
        ∧ ∀ a, a ≠ msgSender → s2.nonces a = s.nonces a)
  ∧ (∀ (W : Type) (ext : ExtCall W) (self : Nat) (op : DOp) (s : DelegateState) (w : W),
      (∀ ms calls, op ≠ DOp.opExecuteBatch ms calls) →
        (((dstep ext self op s w).1).1).nonces = s.nonces)
  ∧ (∀ (W : Type) (ext : ExtCall W) (self : Nat) (op : DOp) (s : DelegateState)
      (w : W) (a : Nat),
      (((dstep ext self op s w).1).1).nonces a ≠ s.nonces a →
        ∃ calls, op = DOp.opExecuteBatch a calls ∧ (dstep ext self op s w).2 = none
          ∧ (((dstep ext self op s w).1).1).nonces a = s.nonces a + 1) := by
  refine ⟨fun a => rfl, ?_, ?_, ?_, ?_⟩
  · intro W ext self op s w a
    rcases dstep_nonces ext self op s w with h | ⟨ms, calls, _, _, h⟩
    · rw [h]
    · rw [h]
      by_cases ha : a = ms
      · subst ha
        rw [upd_same]
        exact Nat.le_succ _
      · rw [upd_other _ _ _ _ ha]
  · intro W ext self msgSender calls s s2 w w2 h
    rcases executeBatchTx_cases ext self msgSender calls s w with ⟨e, he⟩ | ⟨w3, hms, he⟩
    · rw [he] at h
      cases h
    · rw [he] at h
      obtain ⟨h1, h2⟩ := Prod.mk.injEq .. ▸ h
      obtain ⟨h1a, _⟩ := Prod.mk.injEq .. ▸ h1
      subst h1a
      constructor
      · exact upd_same s.nonces msgSender (s.nonces msgSender + 1)
      · intro a ha
        exact upd_other _ _ _ _ ha
  · intro W ext self op s w hop
    rcases dstep_nonces ext self op s w with h | ⟨ms, calls, hbat, _, _⟩
    · exact h
    · exact absurd hbat (hop ms calls)
  · intro W ext self op s w a hne
    rcases dstep_nonces ext self op s w with h | ⟨ms, calls, hbat, hnone, h⟩
    · exact absurd (congrFun h a) hne
    · by_cases ha : a = ms
      · subst ha
        exact ⟨calls, hbat, hnone, by rw [h, upd_same]⟩
      · rw [h, upd_other _ _ _ _ ha] at hne
        exact absurd rfl hne

/-- The delegate state after one successful empty batch by account `5`. -/
def sBumped : DelegateState :=
  ⟨upd DelegateState.init.nonces 5 1, DelegateState.init.sessionKeys⟩

/-- Witness for C2: concrete instances of each conjunct — the fresh counter
is 0, one successful batch by account `5` bumps it to exactly 1, a view
leaves the map untouched, and the observed change is attributed to that
batch. -/
theorem nonces_replay_counter_witness :
    DelegateState.init.nonces 0 = 0
  ∧ DelegateState.init.nonces 5 ≤
      (((dstep extOk 5 (DOp.opExecuteBatch 5 []) DelegateState.init 0).1).1).nonces 5
  ∧ sBumped.nonces 5 = DelegateState.init.nonces 5 + 1
  ∧ (((dstep extOk 5 (DOp.opGetNonce 3) DelegateState.init 0).1).1).nonces
      = DelegateState.init.nonces
  ∧ (∃ calls, DOp.opExecuteBatch 5 [] = DOp.opExecuteBatch 5 calls
      ∧ (dstep extOk 5 (DOp.opExecuteBatch 5 []) DelegateState.init 0).2 = none
      ∧ (((dstep extOk 5 (DOp.opExecuteBatch 5 []) DelegateState.init 0).1).1).nonces 5
          = DelegateState.init.nonces 5 + 1) := by
  obtain ⟨h1, h2, h3, h4, h5⟩ := nonces_replay_counter
  refine ⟨h1 0, h2 Nat extOk 5 (DOp.opExecuteBatch 5 []) DelegateState.init 0 5,
    (h3 Nat extOk 5 5 [] DelegateState.init sBumped 0 0 ?_).1,
    h4 Nat extOk 5 (DOp.opGetNonce 3) DelegateState.init 0 ?_,
    h5 Nat extOk 5 (DOp.opExecuteBatch 5 []) DelegateState.init 0 5 ?_⟩
  · rfl
  · intro ms calls hq
    cases hq
  · decide

/-- C3: `isValidSessionKey` returns `true` exactly when the stored entry is
active and the timestamp has not passed `validUntil`; an inactive entry is
invalid for every timestamp, an expired entry is invalid even when active,
and the call is pure — as a transaction it changes no state and reports no
error. -/
theorem isValidSessionKey_spec (s : DelegateState) (ts k a : Nat) :
    (isValidSessionKey s ts k a = true ↔
      (s.sessionKeys a k).isActive = true ∧ ts ≤ (s.sessionKeys a k).validUntil)
  ∧ ((s.sessionKeys a k).isActive = false → isValidSessionKey s ts k a = false)
  ∧ ((s.sessionKeys a k).validUntil < ts → isValidSessionKey s ts k a = false)
  ∧ (∀ (W : Type) (ext : ExtCall W) (self : Nat) (w : W),
      dstep ext self (DOp.opIsValidSessionKey ts k a) s w = ((s, w), none)) := by
  refine ⟨?_, ?_, ?_, fun W ext self w => rfl⟩
  · simp [isValidSessionKey]
  · intro h
    simp [isValidSessionKey, h]
  · intro h
    simp [isValidSessionKey, not_le.mpr h]

/-- Witness for C3: account `5`, key `9`: the active entry valid at 50,
the revoked entry invalid at 50 despite `validUntil = 100`, the active entry
invalid at 101 > 100, and the view transaction is a no-op. -/
theorem isValidSessionKey_spec_witness :
    isValidSessionKey sWit 50 9 5 = true
  ∧ isValidSessionKey sRevokedFix 50 9 5 = false
  ∧ isValidSessionKey sWit 101 9 5 = false
  ∧ dstep extOk 5 (DOp.opIsValidSessionKey 50 9 5) sWit 0 = ((sWit, 0), none) := by
  obtain ⟨hiff, _, _, hpure⟩ := isValidSessionKey_spec sWit 50 9 5
  obtain ⟨_, hinact, _, _⟩ := isValidSessionKey_spec sRevokedFix 50 9 5
  obtain ⟨_, _, hexp, _⟩ := isValidSessionKey_spec sWit 101 9 5
  exact ⟨hiff.mpr ⟨by rfl, by decide⟩, hinact (by rfl), hexp (by decide),
    hpure Nat extOk 5 0⟩

/-- C4: under an active, unexpired session key, a delegated call whose value
exceeds the stored `maxValue` by exactly one unit reverts with the value-cap
error; a call with value equal to `maxValue` passes the value check and
reaches the external call; and a successful delegated call leaves the
delegate storage — including the stored `maxValue` — unchanged: the cap is
per-operation, never a decremented budget. -/
theorem executeWithSessionKey_value_cap {W : Type} (ext : ExtCall W)
    (txO ms t : Nat) (d : List Nat) (ts : Nat) (s : DelegateState) (w : W)
    (hact : (s.sessionKeys txO ms).isActive = true)
    (hexp : ts ≤ (s.sessionKeys txO ms).validUntil) :
    executeWithSessionKey ext txO ms t ((s.sessionKeys txO ms).maxValue + 1) d ts s w
      = .error (.errorString "Value exceeds session limit")
  ∧ executeWithSessionKey ext txO ms t (s.sessionKeys txO ms).maxValue d ts s w
      = (match ext t (s.sessionKeys txO ms).maxValue d w with
         | .ok w2 => .ok (s, w2)
         | .error r => .error (.raw r))
  ∧ (∀ (v : Nat) (s2 : DelegateState) (w2 : W),
      executeWithSessionKey ext txO ms t v d ts s w = .ok (s2, w2) → s2 = s) := by
  have hvalid : isValidSessionKey s ts ms txO = true := by
    simp [isValidSessionKey, hact, hexp]
  refine ⟨?_, ?_, fun v s2 w2 h =>
    executeWithSessionKey_ok_state ext txO ms t v d ts s w s2 w2 h⟩
  · simp [executeWithSessionKey, hvalid, hact, hexp]
  · simp [executeWithSessionKey, hvalid, hact, hexp]

/-- Witness for C4: key `9` of account `5` has `maxValue = 40`; value 41 is
rejected with the cap error, value 40 reaches the external call. -/
theorem executeWithSessionKey_value_cap_witness :
    executeWithSessionKey extOk 5 9 1 41 [] 50 sWit 0
      = .error (.errorString "Value exceeds session limit")
  ∧ executeWithSessionKey extOk 5 9 1 40 [] 50 sWit 0
      = (match extOk 1 40 [] 0 with
         | .ok w2 => .ok (sWit, w2)
         | .error r => .error (.raw r)) := by
  obtain ⟨h1, h2, _⟩ :=
    executeWithSessionKey_value_cap extOk 5 9 1 [] 50 sWit 0 (by rfl) (by decide)
  exact ⟨h1, h2⟩

/-- C5 counterexample: with the entry point calling, `opHighFee` violates
both the fee-rate ceiling (200 gwei > 100 gwei) and the funded-balance
condition (balance 4 < declared cost 5) while satisfying the shutdown,
gas-ceiling and whitelist conditions. The claim's check order (fee rate
before balance) predicts the fee error, but the code reports the balance
error: the source checks the entry-point deposit before parsing the gas
fees, and it also runs a sixth check (the entry-point caller test) that the
claim's list of exactly five checks omits. -/
theorem validate_check_order_cex :
    MAX_FEE_PER_GAS < (parseGasFees opHighFee.gasFees).1
  ∧ (4 : Nat) < 5
  ∧ payRun.isShutdown = false
  ∧ opHighFee.preVerificationGas ≤ MAX_GAS_LIMIT
  ∧ payRun.sponsoredAccounts opHighFee.sender = true
  ∧ validatePaymasterUserOp payRun 1 4 opHighFee 0 5
      = .error (.errorString "Insufficient funds for gas")
  ∧ RevertData.errorString "Insufficient funds for gas"
      ≠ RevertData.errorString "Gas fee too high" := by
  refine ⟨by decide, by decide, rfl, by decide, rfl, by rfl, by decide⟩

/-- C5 amended: `validatePaymasterUserOp` performs six ordered checks —
shutdown guard, entry-point caller, `preVerificationGas` ceiling, funded
entry-point balance, fee-rate ceiling, sponsorship whitelist — admits
exactly when all six hold, and reports the first failing check in that
order. -/
theorem validate_check_order (s : PayState) (ms bal : Nat)
    (uop : PackedUserOperation) (h mc : Nat) :
    validatePaymasterUserOp s ms bal uop h mc
      = (match firstFailing (admitChecks s ms bal uop mc) with
         | some msg => .error (.errorString msg)
         | none => .ok (uop.sender, 0)) := by
  by_cases h1 : s.isShutdown <;> by_cases h2 : s.entryPoint = ms <;>
    by_cases h3 : uop.preVerificationGas ≤ MAX_GAS_LIMIT <;>
    by_cases h4 : bal ≥ mc <;>
    by_cases h5 : (parseGasFees uop.gasFees).1 ≤ MAX_FEE_PER_GAS <;>
    by_cases h6 : s.sponsoredAccounts uop.sender = true <;>
    simp [validatePaymasterUserOp, admitChecks, firstFailing, shutdownErr,
      h1, h2, h3, h4, h5, h6]

/-- C6: with every other admission condition satisfied, a funded balance of
exactly `maxCost - 1` is rejected with the insufficient-funds error, and a
balance of exactly `maxCost` is admitted: the balance comparison is `>=`,
not a strict `>`. -/
theorem validate_balance_boundary (s : PayState) (ms : Nat)
    (uop : PackedUserOperation) (h mc : Nat)
    (hsd : s.isShutdown = false) (hep : s.entryPoint = ms)
    (hg : uop.preVerificationGas ≤ MAX_GAS_LIMIT)
    (hf : (parseGasFees uop.gasFees).1 ≤ MAX_FEE_PER_GAS)
    (hsp : s.sponsoredAccounts uop.sender = true)
    (hmc : 0 < mc) :
    validatePaymasterUserOp s ms (mc - 1) uop h mc
      = .error (.errorString "Insufficient funds for gas")
  ∧ validatePaymasterUserOp s ms mc uop h mc = .ok (uop.sender, 0) := by
  have hlt : ¬ (mc - 1 ≥ mc) := by omega
  constructor
  · simp [validatePaymasterUserOp, hsd, hep, hg, hf, hsp, hlt]
  · simp [validatePaymasterUserOp, hsd, hep, hg, hf, hsp, Nat.le_refl]

/-- Witness for C6: entry point `1`, declared cost 5 — balance 4 rejected,
balance 5 admitted. -/
theorem validate_balance_boundary_witness :
    validatePaymasterUserOp payRun 1 4 opModest 0 5
      = .error (.errorString "Insufficient funds for gas")
  ∧ validatePaymasterUserOp payRun 1 5 opModest 0 5 = .ok (3, 0) :=
  validate_balance_boundary payRun 1 opModest 0 5 rfl rfl (by decide) (by decide)
    rfl (by decide)

/-- C7: `addSessionKey` by the account itself always succeeds and
unconditionally overwrites the stored entry — whatever was there before,
including a revoked or expired entry — with the new `validUntil` and
`maxValue` and the active flag set to `true`; afterwards the key is valid
exactly while the timestamp is at most the new `validUntil` (so a past
`validUntil` is accepted and merely yields an immediately-invalid key);
every other entry and the nonce map are untouched. -/
theorem addSessionKey_overwrites (self k vU mV : Nat) (s : DelegateState) :
    ∃ s2, addSessionKey self self k vU mV s = .ok s2
      ∧ s2.sessionKeys self k = ⟨vU, mV, true⟩
      ∧ (∀ ts, isValidSessionKey s2 ts k self = decide (ts ≤ vU))
      ∧ (∀ a d, a ≠ self ∨ d ≠ k → s2.sessionKeys a d = s.sessionKeys a d)
      ∧ s2.nonces = s.nonces := by
  refine ⟨⟨s.nonces, upd s.sessionKeys self (upd (s.sessionKeys self) k ⟨vU, mV, true⟩)⟩,
    ?_, ?_, ?_, ?_, rfl⟩
  · unfold addSessionKey
    rw [if_pos rfl]
  · simp [upd]
  · intro ts
    simp [isValidSessionKey, upd]
  · intro a d had
    rcases had with ha | hd
    · simp [upd, ha]
    · by_cases ha : a = self
      · subst ha
        simp [upd, hd]
      · simp [upd, ha]

/-- Witness for C7: re-granting key `9` of account `5` over a revoked entry
(`validUntil = 100`, `maxValue = 40`, inactive) with `validUntil = 50`,
`maxValue = 10` fully overwrites it and reactivates it. -/
theorem addSessionKey_overwrites_witness :
    ∃ s2, addSessionKey 5 5 9 50 10 sRevokedFix = .ok s2
      ∧ s2.sessionKeys 5 9 = ⟨50, 10, true⟩
      ∧ (∀ ts, isValidSessionKey s2 ts 9 5 = decide (ts ≤ 50))
      ∧ (∀ a d, a ≠ 5 ∨ d ≠ 9 → s2.sessionKeys a d = sRevokedFix.sessionKeys a d)
      ∧ s2.nonces = sRevokedFix.nonces :=
  addSessionKey_overwrites 5 9 50 10 sRevokedFix

/-- C8 counterexample: after the gate is shut down, `postOp` — the
post-execution recording step — reverts with the shutdown error, because it
carries the `notShutdown` modifier. So the recording step IS able to fail
the already-completed operation for some state of the gate, contrary to the
claim's "for any state of the gate". -/
theorem postOp_shutdown_cex :
    payShut.isShutdown = true
  ∧ postOp payShut 1 0 3 5 0 = .error (.errorString "Paymaster is shut down") := by
  exact ⟨rfl, rfl⟩

theorem postOp_ok_characterized (s : PayState) (ms mode ctx cost fee : Nat)
    (s2 : PayState) (h : postOp s ms mode ctx cost fee = .ok s2) :
    s2.accountGasUsage = upd s.accountGasUsage ctx (s.accountGasUsage ctx + cost)
    ∧ s2.isShutdown = s.isShutdown ∧ s2.sponsoredAccounts = s.sponsoredAccounts := by
  unfold postOp at h
  by_cases h1 : s.isShutdown = true
  · rw [if_pos h1] at h
    cases h
  · rw [if_neg h1] at h
    by_cases h2 : ¬ (s.entryPoint = ms)
    · rw [if_pos h2] at h
      cases h
    · rw [if_neg h2] at h
      unfold uadd at h
      by_cases h3 : s.accountGasUsage ctx + cost < UINT256_MOD
      · rw [if_pos h3] at h
        have h4 := Except.ok.inj h
        subst h4
        exact ⟨rfl, rfl, rfl⟩
      · rw [if_neg h3] at h
        cases h

/-- Under every paymaster transaction, the per-account cumulative usage
counter never decreases: only a successful `postOp` touches it, and it only
adds. -/
theorem pstep_usage_mono (op : POp) (s : PayState) (a : Nat) :
    s.accountGasUsage a ≤ ((pstep op s).1).accountGasUsage a := by
  cases op with
  | opPostOp ms mode ctx cost fee =>
    simp only [pstep]
    cases hp : postOp s ms mode ctx cost fee with
    | ok s2 =>
      obtain ⟨hu, _, _⟩ := postOp_ok_characterized s ms mode ctx cost fee s2 hp
      simp only [txOf, hu]
      by_cases ha : a = ctx
      · subst ha
        rw [upd_same]
        exact Nat.le_add_right _ _
      · rw [upd_other _ _ _ _ ha]
    | error e => simp [txOf]
  | opValidatePaymasterUserOp ms bal uop h mc =>
    simp only [pstep]
    cases validatePaymasterUserOp s ms bal uop h mc <;> exact Nat.le_refl _
  | opAddSponsoredAccount ms acct =>
    by_cases hms : ms = s.owner <;> simp [pstep, txOf, addSponsoredAccount, hms]
  | opRemoveSponsoredAccount ms acct =>
    by_cases hms : ms = s.owner <;> simp [pstep, txOf, removeSponsoredAccount, hms]
  | opDeposit ms v =>
    by_cases hms : ms = s.owner <;> simp [pstep, txOf, deposit, hms]
  | opWithdrawFromEntryPoint ms amt =>
    by_cases hms : ms = s.owner <;> simp [pstep, txOf, withdrawFromEntryPoint, hms]
  | opWithdraw ms =>
    by_cases hms : ms = s.owner <;>
      by_cases hsd : s.isShutdown = true <;>
      simp [pstep, txOf, withdraw, hms, hsd]
  | opShutdown ms =>
    by_cases hms : ms = s.owner <;> simp [pstep, txOf, shutdown, hms]
  | opTransferOwnership ms o =>
    by_cases hms : ms = s.owner <;> by_cases ho : o = 0 <;>
      simp [pstep, txOf, transferOwnership, hms, ho]
  | opRenounceOwnership ms =>
    by_cases hms : ms = s.owner <;> simp [pstep, txOf, renounceOwnership, hms]
  | opGetDeposit ms => exact Nat.le_refl _
  | opReceiveEth v => exact Nat.le_refl _

/-- C8 amended: while the gate is not shut down and the caller is the entry
point (absent `uint256` overflow), `postOp` succeeds and adds the actual gas
cost to exactly that account's cumulative usage counter; the counter never
decreases under any paymaster transaction; but `postOp` can revert once the
gate has been shut down (see the counterexample), so it cannot fail the
completed operation only while the gate is running. -/
theorem postOp_records_usage (s : PayState) (ms mode ctx cost fee : Nat)
    (hsd : s.isShutdown = false) (hep : s.entryPoint = ms)
    (hof : s.accountGasUsage ctx + cost < UINT256_MOD) :
    postOp s ms mode ctx cost fee
      = .ok { s with accountGasUsage := upd s.accountGasUsage ctx (s.accountGasUsage ctx + cost) }
  ∧ (∀ s2, postOp s ms mode ctx cost fee = .ok s2 →
      s2.accountGasUsage ctx = s.accountGasUsage ctx + cost
      ∧ ∀ a, a ≠ ctx → s2.accountGasUsage a = s.accountGasUsage a)
  ∧ (∀ (op : POp) (s3 : PayState) (a : Nat),
      s3.accountGasUsage a ≤ ((pstep op s3).1).accountGasUsage a) := by
  refine ⟨?_, ?_, pstep_usage_mono⟩
  · unfold postOp uadd
    rw [if_neg (by simp [hsd]), if_neg (not_not_intro hep), if_pos hof]
  · intro s2 h
    obtain ⟨hu, _, _⟩ := postOp_ok_characterized s ms mode ctx cost fee s2 h
    rw [hu]
    exact ⟨upd_same _ _ _, fun a ha => upd_other _ _ _ _ ha⟩

/-- The paymaster state after `postOp` records cost 5 for account 3 on
`payRun`. -/
def payBumped : PayState :=
  ⟨false, 1, 2, 7, upd payRun.accountGasUsage 3 (payRun.accountGasUsage 3 + 5),
    payRun.sponsoredAccounts⟩

/-- Witness for C8 (amended): on the running gate, `postOp` called by the
entry point records cost 5 for account 3, and the usage counter does not
decrease. -/
theorem postOp_records_usage_witness :
    payBumped.accountGasUsage 3 = payRun.accountGasUsage 3 + 5
  ∧ payRun.accountGasUsage 3
      ≤ ((pstep (POp.opPostOp 1 0 3 5 0) payRun).1).accountGasUsage 3 := by
  obtain ⟨h1, h2, h3⟩ := postOp_records_usage payRun 1 0 3 5 0 rfl rfl (by decide)
  exact ⟨(h2 payBumped h1).1, h3 (POp.opPostOp 1 0 3 5 0) payRun 3⟩

/-- The delegate state after the account `self` revokes `sessionKeys[self][k]`. -/
def dRevoked (s : DelegateState) (self k : Nat) : DelegateState :=
  ⟨s.nonces, upd s.sessionKeys self
    (upd (s.sessionKeys self) k { s.sessionKeys self k with isActive := false })⟩

theorem revokeSessionKey_self_eq (self k : Nat) (s : DelegateState) :
    revokeSessionKey self self k s = .ok (dRevoked s self k) := by
  unfold revokeSessionKey dRevoked
  rw [if_pos rfl]

/-- C9: `revokeSessionKey` by the account itself always succeeds — also for
a pair that was never granted — leaves the entry's active flag `false`, so
the pair is invalid at every timestamp, is idempotent (revoking a second
time returns exactly the same store), and touches no other entry and no
nonce. -/
theorem revokeSessionKey_idempotent (self k : Nat) (s : DelegateState) :
    revokeSessionKey self self k s = .ok (dRevoked s self k)
  ∧ ((dRevoked s self k).sessionKeys self k).isActive = false
  ∧ revokeSessionKey self self k (dRevoked s self k) = .ok (dRevoked s self k)
  ∧ (∀ ts, isValidSessionKey (dRevoked s self k) ts k self = false)
  ∧ (∀ a d, a ≠ self ∨ d ≠ k →
      (dRevoked s self k).sessionKeys a d = s.sessionKeys a d)
  ∧ (dRevoked s self k).nonces = s.nonces := by
  have hmap : upd (dRevoked s self k).sessionKeys self
      (upd ((dRevoked s self k).sessionKeys self) k
        { (dRevoked s self k).sessionKeys self k with isActive := false })
      = (dRevoked s self k).sessionKeys := by
    funext x y
    by_cases hx : x = self
    · subst hx
      by_cases hy : y = k
      · subst hy
        simp [dRevoked, upd]
      · simp [dRevoked, upd, hy]
    · simp [dRevoked, upd, hx]
  refine ⟨revokeSessionKey_self_eq self k s, by simp [dRevoked, upd], ?_, ?_, ?_, rfl⟩
  · rw [revokeSessionKey_self_eq self k (dRevoked s self k)]
    unfold dRevoked at hmap ⊢
    rw [hmap]
  · intro ts
    simp [isValidSessionKey, dRevoked, upd]
  · intro a d had
    rcases had with ha | hd
    · simp [dRevoked, upd, ha]
    · by_cases ha : a = self
      · subst ha
        simp [dRevoked, upd, hd]
      · simp [dRevoked, upd, ha]

/-- Witness for C9 at a concrete instance: account `5` revokes the
never-granted key `11` of the fresh store — no error, the pair invalid,
revocation idempotent. -/
theorem revokeSessionKey_idempotent_witness :
    revokeSessionKey 5 5 11 DelegateState.init = .ok (dRevoked DelegateState.init 5 11)
  ∧ ((dRevoked DelegateState.init 5 11).sessionKeys 5 11).isActive = false
  ∧ revokeSessionKey 5 5 11 (dRevoked DelegateState.init 5 11)
      = .ok (dRevoked DelegateState.init 5 11)
  ∧ (∀ ts, isValidSessionKey (dRevoked DelegateState.init 5 11) ts 11 5 = false)
  ∧ (∀ a d, a ≠ 5 ∨ d ≠ 11 →
      (dRevoked DelegateState.init 5 11).sessionKeys a d
        = DelegateState.init.sessionKeys a d)
  ∧ (dRevoked DelegateState.init 5 11).nonces = DelegateState.init.nonces :=
  revokeSessionKey_idempotent 5 11 DelegateState.init

/-- Every paymaster transaction preserves `isShutdown = true`: no function
of the contract writes `false` to the flag after construction. -/
theorem pstep_preserves_shutdown (op : POp) (s : PayState)
    (h : s.isShutdown = true) : ((pstep op s).1).isShutdown = true := by
  cases op with
  | opValidatePaymasterUserOp ms bal uop hh mc =>
    simp only [pstep]
    cases validatePaymasterUserOp s ms bal uop hh mc <;> exact h
  | opPostOp ms mode ctx cost fee =>
    simp only [pstep, postOp]
    rw [if_pos h]
    exact h
  | opAddSponsoredAccount ms a =>
    by_cases hms : ms = s.owner <;> simp [pstep, txOf, addSponsoredAccount, hms, h]
  | opRemoveSponsoredAccount ms a =>
    by_cases hms : ms = s.owner <;> simp [pstep, txOf, removeSponsoredAccount, hms, h]
  | opDeposit ms v =>
    by_cases hms : ms = s.owner <;> simp [pstep, txOf, deposit, hms, h]
  | opWithdrawFromEntryPoint ms amt =>
    by_cases hms : ms = s.owner <;> simp [pstep, txOf, withdrawFromEntryPoint, hms, h]
  | opWithdraw ms =>
    by_cases hms : ms = s.owner <;> simp [pstep, txOf, withdraw, hms, h]
  | opShutdown ms =>
    by_cases hms : ms = s.owner <;> simp [pstep, txOf, shutdown, hms, h]
  | opTransferOwnership ms o =>
    by_cases hms : ms = s.owner <;> by_cases ho : o = 0 <;>
      simp [pstep, txOf, transferOwnership, hms, ho, h]
  | opRenounceOwnership ms =>
    by_cases hms : ms = s.owner <;> simp [pstep, txOf, renounceOwnership, hms, h]
  | opGetDeposit ms => exact h
  | opReceiveEth v => exact h

/-- C10: `isShutdown` starts `false` at construction, `shutdown` sets it
`true`, no reachable sequence of paymaster transactions ever resets it, and
in every shut-down state `validatePaymasterUserOp` and `postOp` revert with
the shutdown error for every caller, while `withdraw` reverts for every
caller — with the shutdown error whenever its `onlyOwner` gate passes (for
any other caller the `Ownable` error fires first, before and after
shutdown alike). -/
theorem shutdown_permanent :
    (∀ (op : POp) (s : PayState), s.isShutdown = true →
      ((pstep op s).1).isShutdown = true)
  ∧ (∀ (ops : List POp) (s : PayState), s.isShutdown = true →
      (runPOps ops s).isShutdown = true)
  ∧ (∀ (s : PayState) (ms bal : Nat) (uop : PackedUserOperation) (h mc : Nat),
      s.isShutdown = true →
        validatePaymasterUserOp s ms bal uop h mc = .error shutdownErr)
  ∧ (∀ (s : PayState) (ms mode ctx cost fee : Nat), s.isShutdown = true →
      postOp s ms mode ctx cost fee = .error shutdownErr)
  ∧ (∀ (s : PayState) (ms : Nat), s.isShutdown = true →
      (∃ e, withdraw s ms = .error e) ∧ withdraw s s.owner = .error shutdownErr)
  ∧ (∀ d ep af, (payConstruct d ep af).isShutdown = false)
  ∧ (∀ (s s2 : PayState) (ms : Nat), shutdown s ms = .ok s2 →
      s2.isShutdown = true) := by
  refine ⟨pstep_preserves_shutdown, ?_, ?_, ?_, ?_, fun d ep af => rfl, ?_⟩
  · intro ops
    induction ops with
    | nil => exact fun s h => h
    | cons op rest ih =>
      intro s h
      exact ih _ (pstep_preserves_shutdown op s h)
  · intro s ms bal uop h mc hsd
    unfold validatePaymasterUserOp
    rw [if_pos hsd]
  · intro s ms mode ctx cost fee hsd
    unfold postOp
    rw [if_pos hsd]
  · intro s ms hsd
    constructor
    · by_cases hms : ms = s.owner
      · refine ⟨shutdownErr, ?_⟩
        unfold withdraw
        rw [if_pos hms, if_pos hsd]
      · refine ⟨notOwnerErr ms, ?_⟩
        unfold withdraw
        rw [if_neg hms]
    · unfold withdraw
      rw [if_pos rfl, if_pos hsd]
  · intro s s2 ms h
    unfold shutdown at h
    by_cases hms : ms = s.owner
    · rw [if_pos hms] at h
      have h2 := Except.ok.inj h
      subst h2
      rfl
    · rw [if_neg hms] at h
      cases h

/-- Witness for C10: after shutting down `payRun` (yielding `payShut`), a
whitelist update preserves the flag, a two-transaction run preserves the
flag, validation and `postOp` revert with the shutdown error, the owner's
`withdraw` reverts with the shutdown error, and a fresh construction starts
not shut down. -/
theorem shutdown_permanent_witness :
    ((pstep (POp.opAddSponsoredAccount 7 3) payShut).1).isShutdown = true
  ∧ (runPOps [POp.opWithdraw 7, POp.opPostOp 1 0 4 6 0] payShut).isShutdown = true
  ∧ validatePaymasterUserOp payShut 1 100 opModest 0 5 = .error shutdownErr
  ∧ postOp payShut 1 0 4 6 0 = .error shutdownErr
  ∧ withdraw payShut payShut.owner = .error shutdownErr
  ∧ (payConstruct 7 1 2).isShutdown = false
  ∧ payShut.isShutdown = true := by
  obtain ⟨h1, h2, h3, h4, h5, h6, h7⟩ := shutdown_permanent
  exact ⟨h1 (POp.opAddSponsoredAccount 7 3) payShut rfl,
    h2 [POp.opWithdraw 7, POp.opPostOp 1 0 4 6 0] payShut rfl,
    h3 payShut 1 100 opModest 0 5 rfl,
    h4 payShut 1 0 4 6 0 rfl,
    (h5 payShut payShut.owner rfl).2,
    h6 7 1 2,
    h7 payRun payShut 7 (by rfl)⟩
